import Mathlib

/-!
Shallow embedding of the simulation/coordinate core of `src/main.py`
(DetectorScout): grid addressing, exclusion-zone intersection, agent
motion tick, marker stores, and the serial event gate.

Continuous plane coordinates are modelled by `ℚ`; Python `int` by `ℤ`
(or `ℕ` where the source only ever produces non-negative values);
Python strings by `String`/`List Char` with explicit code-point
arithmetic.
-/

namespace DetectorScout

/-! ### Python string helpers -/

/-- Python `str.upper()` restricted to ASCII: maps `a`–`z` (code points
97–122) to `A`–`Z`, leaves every other character unchanged. -/
def pyUpperChar (c : Char) : Char :=
  if 97 ≤ c.toNat ∧ c.toNat ≤ 122 then Char.ofNat (c.toNat - 32) else c

/-- Python `str.upper()` on a whole string. -/
def pyUpper (s : String) : String :=
  ⟨s.data.map pyUpperChar⟩

/-- The default whitespace set of Python `str.strip()`. -/
def isPySpace (c : Char) : Bool :=
  c.toNat == 32 || c.toNat == 9 || c.toNat == 10 ||
  c.toNat == 13 || c.toNat == 11 || c.toNat == 12

/-- Python `str.strip()`: drop leading and trailing whitespace. -/
def pyStrip (l : List Char) : List Char :=
  ((l.dropWhile isPySpace).reverse.dropWhile isPySpace).reverse

/-! ### Grid coordinate system (`_index_to_letters`, `_letters_to_index`) -/

/-- Fuel-indexed loop body of `_index_to_letters`: for a positive value
`m + 1` the Python loop computes `divmod(m, 26)`, emits
`chr(ord('A') + m % 26)` and continues with `m / 26`.  The first
argument is fuel bounding the number of iterations. -/
def lettersAuxF : ℕ → ℕ → List Char
  | 0, _ => []
  | _ + 1, 0 => []
  | f + 1, m + 1 => lettersAuxF f (m / 26) ++ [Char.ofNat (65 + m % 26)]

/-- The letter list produced by `_index_to_letters` for a natural input. -/
def lettersAux (n : ℕ) : List Char := lettersAuxF n n

/-- Embedding of `GridCanvas._index_to_letters`: bijective base-26 rendering of a
1-based index (1→"A", 26→"Z", 27→"AA"); the loop is skipped for `n ≤ 0`,
yielding `""`. -/
def indexToLetters (n : ℤ) : String := ⟨lettersAux n.toNat⟩

/-- Python `'A' <= ch <= 'Z'` (code points 65–90). -/
def isAZ (c : Char) : Bool := 65 ≤ c.toNat && c.toNat ≤ 90

/-- Loop body of `_letters_to_index`: accumulate
`val = val * 26 + (ord(ch) - ord('A') + 1)` for `A`–`Z` characters and
silently skip every other character. -/
def letterStep (v : ℕ) (c : Char) : ℕ :=
  if isAZ c then v * 26 + (c.toNat - 64) else v

/-- Embedding of `GridCanvas._letters_to_index`: uppercases and strips the input,
then folds `letterStep` over its characters starting from 0. -/
def lettersToIndex (s : String) : ℕ :=
  (pyStrip (pyUpper s).data).foldl letterStep 0

/-! ### Basic lemmas about the letter conversion -/

theorem toNat_ofNat_valid (n : ℕ) (h : n < 55296) :
    (Char.ofNat n).toNat = n := by
  have hv : n.isValidChar := Or.inl h
  simp only [Char.ofNat, hv, dif_pos]
  rfl

theorem lettersAuxF_fuel (f : ℕ) : ∀ n, n ≤ f → lettersAuxF f n = lettersAux n := by
  induction f using Nat.strong_induction_on with
  | _ f ih =>
    intro n hn
    match f, n with
    | 0, 0 => rfl
    | f + 1, 0 => rfl
    | 0, _ + 1 => omega
    | f + 1, m + 1 =>
      have h1 : m / 26 ≤ f := le_trans (Nat.div_le_self m 26) (by omega)
      have h2 : m / 26 ≤ m := Nat.div_le_self m 26
      show lettersAuxF f (m / 26) ++ _ = lettersAuxF (m + 1) (m + 1)
      rw [ih f (by omega) (m / 26) h1]
      show lettersAux (m / 26) ++ _ = lettersAuxF m (m / 26) ++ _
      rw [ih m (by omega) (m / 26) h2]

/-- Unfolding equation for `lettersAux` at a positive input. -/
theorem lettersAux_succ (m : ℕ) :
    lettersAux (m + 1) = lettersAux (m / 26) ++ [Char.ofNat (65 + m % 26)] := by
  show lettersAuxF (m + 1) (m + 1) = _
  show lettersAuxF m (m / 26) ++ _ = _
  rw [lettersAuxF_fuel m (m / 26) (Nat.div_le_self m 26)]

/-- Every character emitted by `_index_to_letters` is in `A`–`Z`. -/
theorem lettersAux_mem (n : ℕ) :
    ∀ c ∈ lettersAux n, 65 ≤ c.toNat ∧ c.toNat ≤ 90 := by
  induction n using Nat.strong_induction_on with
  | _ n ih =>
    match n with
    | 0 => intro c hc; simp [lettersAux, lettersAuxF] at hc
    | m + 1 =>
      intro c hc
      rw [lettersAux_succ] at hc
      rcases List.mem_append.mp hc with h | h
      · exact ih (m / 26) (by have := Nat.div_le_self m 26; omega) c h
      · have hm : m % 26 < 26 := Nat.mod_lt m (by omega)
        have : c = Char.ofNat (65 + m % 26) := by simpa using h
        subst this
        rw [toNat_ofNat_valid (65 + m % 26) (by omega)]
        omega

/-- The fold of `letterStep` inverts `lettersAux`, for any accumulator. -/
theorem foldl_letterStep_lettersAux (n : ℕ) :
    ∀ v : ℕ, (lettersAux n).foldl letterStep v
      = v * 26 ^ (lettersAux n).length + n := by
  induction n using Nat.strong_induction_on with
  | _ n ih =>
    match n with
    | 0 => intro v; simp [lettersAux, lettersAuxF]
    | m + 1 =>
      intro v
      have hm : m % 26 < 26 := Nat.mod_lt m (by omega)
      have hchar : (Char.ofNat (65 + m % 26)).toNat = 65 + m % 26 :=
        toNat_ofNat_valid _ (by omega)
      rw [lettersAux_succ, List.foldl_append]
      rw [ih (m / 26) (by have := Nat.div_le_self m 26; omega) v]
      have haz : isAZ (Char.ofNat (65 + m % 26)) = true := by
        simp [isAZ, hchar]
        omega
      simp only [List.foldl_cons, List.foldl_nil, letterStep, haz, if_true, hchar]
      rw [List.length_append, List.length_singleton, pow_succ, ← mul_assoc]
      have hdm : 26 * (m / 26) + m % 26 = m := Nat.div_add_mod m 26
      generalize v * 26 ^ (lettersAux (m / 26)).length = w
      omega

/-- Uppercasing fixes characters already in `A`–`Z`. -/
theorem pyUpperChar_of_AZ (c : Char) (h1 : 65 ≤ c.toNat) (h2 : c.toNat ≤ 90) :
    pyUpperChar c = c := by
  unfold pyUpperChar
  rw [if_neg]
  omega

/-- A whitespace character is never `A`–`Z`. -/
theorem isAZ_of_isPySpace (c : Char) (h : isPySpace c = true) : isAZ c = false := by
  simp only [isPySpace, Bool.or_eq_true, beq_iff_eq] at h
  simp only [isAZ, Bool.and_eq_false_iff, decide_eq_false_iff_not]
  omega

theorem dropWhile_eq_self_of_all {p : Char → Bool} {l : List Char}
    (h : ∀ c ∈ l, p c = false) : l.dropWhile p = l := by
  cases l with
  | nil => rfl
  | cons a as =>
    rw [List.dropWhile_cons, if_neg]
    simp [h a (List.mem_cons_self a as)]

/-- Stripping is the identity on whitespace-free character lists. -/
theorem pyStrip_eq_self {l : List Char}
    (h : ∀ c ∈ l, isPySpace c = false) : pyStrip l = l := by
  unfold pyStrip
  rw [dropWhile_eq_self_of_all h]
  rw [dropWhile_eq_self_of_all (fun c hc => h c (List.mem_reverse.mp hc))]
  exact List.reverse_reverse l

/-- C2: For every positive integer `n`,
`_letters_to_index (_index_to_letters n) = n`: the 1-based-index to
bijective base-26 label conversion round-trips to the identity. -/
theorem lettersToIndex_indexToLetters (n : ℤ) (h : 0 < n) :
    (lettersToIndex (indexToLetters n) : ℤ) = n := by
  have hmem := lettersAux_mem n.toNat
  have hdata : (indexToLetters n).data = lettersAux n.toNat := rfl
  unfold lettersToIndex
  have hmap : (pyUpper (indexToLetters n)).data = lettersAux n.toNat := by
    show ((indexToLetters n).data.map pyUpperChar) = _
    rw [hdata]
    exact List.map_congr_left (fun c hc =>
      pyUpperChar_of_AZ c (hmem c hc).1 (hmem c hc).2) ▸
        (lettersAux n.toNat).map_id
  rw [hmap, pyStrip_eq_self (fun c hc => by
    have := hmem c hc
    simp only [isPySpace, Bool.or_eq_false_iff, beq_eq_false_iff_ne, ne_eq]
    omega)]
  rw [foldl_letterStep_lettersAux n.toNat 0, zero_mul, zero_add]
  exact_mod_cast congrArg Int.ofNat (rfl : n.toNat = n.toNat) |>.trans
    (Int.toNat_of_nonneg (le_of_lt h))

/-- Closed witness for C2 at `n = 28` (label "AB"). -/
theorem lettersToIndex_indexToLetters_witness :
    ((0 : ℤ) < 28) ∧ (lettersToIndex (indexToLetters 28) : ℤ) = 28 :=
  ⟨by norm_num, lettersToIndex_indexToLetters 28 (by norm_num)⟩

/-- C10: `_index_to_letters` is total over all integers: every
`n ≤ 0` yields the empty string (the loop never runs), and every
`n ≥ 1` yields a non-empty string whose characters all have code points
in 65–90, i.e. are drawn from `A`–`Z`. -/
theorem indexToLetters_total :
    (∀ n : ℤ, n ≤ 0 → indexToLetters n = "") ∧
    (∀ n : ℤ, 1 ≤ n → indexToLetters n ≠ "" ∧
      ∀ c ∈ (indexToLetters n).data, 65 ≤ c.toNat ∧ c.toNat ≤ 90) := by
  constructor
  · intro n hn
    unfold indexToLetters
    rw [Int.toNat_of_nonpos hn]
    rfl
  · intro n hn
    refine ⟨?_, fun c hc => lettersAux_mem n.toNat c hc⟩
    have h1 : 1 ≤ n.toNat := by omega
    unfold indexToLetters
    intro hcon
    rw [String.ext_iff] at hcon
    have : lettersAux n.toNat = [] := hcon
    obtain ⟨m, hm⟩ : ∃ m, n.toNat = m + 1 := ⟨n.toNat - 1, by omega⟩
    rw [hm, lettersAux_succ] at this
    simp at this

/-- Closed witness for C10 at `n = -5` and `n = 2`. -/
theorem indexToLetters_total_witness :
    indexToLetters (-5) = "" ∧ indexToLetters 2 ≠ "" ∧
      65 ≤ Char.toNat 'B' ∧ Char.toNat 'B' ≤ 90 :=
  ⟨indexToLetters_total.1 (-5) (by norm_num),
   (indexToLetters_total.2 2 (by norm_num)).1,
   ((indexToLetters_total.2 2 (by norm_num)).2 'B' (by decide)).1,
   ((indexToLetters_total.2 2 (by norm_num)).2 'B' (by decide)).2⟩

/-- C3 counterexample: `_letters_to_index` does not fail on invalid
labels: it is a total function that returns `0` for the empty string and
silently coerces `"A1"` (which contains the non-letter `1`) to the same
index `1` as the valid label `"A"` — no `AddressError`-style failure
path exists in the source. -/
theorem lettersToIndex_no_failure :
    lettersToIndex "" = 0 ∧ lettersToIndex "A1" = 1 ∧
      lettersToIndex "A1" = lettersToIndex "A" := by
  refine ⟨rfl, rfl, rfl⟩

theorem foldl_letterStep_filter (l : List Char) :
    ∀ v : ℕ, l.foldl letterStep v = (l.filter isAZ).foldl letterStep v := by
  induction l with
  | nil => intro v; rfl
  | cons a as ih =>
    intro v
    by_cases h : isAZ a = true
    · rw [List.foldl_cons, List.filter_cons, if_pos h, List.foldl_cons]
      exact ih _
    · rw [List.foldl_cons, List.filter_cons, if_neg h]
      have : letterStep v a = v := by
        unfold letterStep
        rw [if_neg (by simpa using h)]
      rw [this]
      exact ih v

theorem filter_isAZ_dropWhile (l : List Char) :
    (l.dropWhile isPySpace).filter isAZ = l.filter isAZ := by
  induction l with
  | nil => rfl
  | cons a as ih =>
    rw [List.dropWhile_cons]
    by_cases h : isPySpace a = true
    · rw [if_pos h, ih, List.filter_cons, if_neg (by simp [isAZ_of_isPySpace a h])]
    · rw [if_neg h]

theorem filter_isAZ_pyStrip (l : List Char) :
    (pyStrip l).filter isAZ = l.filter isAZ := by
  unfold pyStrip
  rw [List.filter_reverse, filter_isAZ_dropWhile, List.filter_reverse,
    List.reverse_reverse, filter_isAZ_dropWhile]

/-- C3 amended: `_letters_to_index` never raises: it returns `0`
for the empty string, and its result depends only on the `A`–`Z`
characters of the uppercased input — every other character (digits,
punctuation, whitespace) is silently skipped, so invalid labels are
silently coerced instead of rejected. -/
theorem lettersToIndex_amended :
    lettersToIndex "" = 0 ∧
    ∀ s : String, lettersToIndex s
      = ((pyUpper s).data.filter isAZ).foldl letterStep 0 := by
  refine ⟨rfl, fun s => ?_⟩
  unfold lettersToIndex
  rw [foldl_letterStep_filter, filter_isAZ_pyStrip]

/-! ### Exclusion zones (`QRectF` and `_bbox_intersects_rects`) -/

/-- A `QRectF`: position and extent in continuous plane coordinates.
Width and height may be negative (Qt normalizes inside `intersects`). -/
structure Rect where
  x : ℚ
  y : ℚ
  w : ℚ
  h : ℚ
deriving DecidableEq

/-- Embedding of `QRectF.intersects` as implemented by Qt: normalize each rectangle's
interval per axis, treat empty (zero-extent) rectangles as intersecting
nothing, and require strict overlap on both axes. -/
def qrectIntersects (a b : Rect) : Bool :=
  let l1 := a.x + (if a.w < 0 then a.w else 0)
  let r1 := a.x + (if a.w < 0 then 0 else a.w)
  let l2 := b.x + (if b.w < 0 then b.w else 0)
  let r2 := b.x + (if b.w < 0 then 0 else b.w)
  if l1 = r1 ∨ l2 = r2 then false
  else if r2 ≤ l1 ∨ r1 ≤ l2 then false
  else
    let t1 := a.y + (if a.h < 0 then a.h else 0)
    let b1 := a.y + (if a.h < 0 then 0 else a.h)
    let t2 := b.y + (if b.h < 0 then b.h else 0)
    let b2 := b.y + (if b.h < 0 then 0 else b.h)
    if t1 = b1 ∨ t2 = b2 then false
    else if b2 ≤ t1 ∨ b1 ≤ t2 then false
    else true

/-- Embedding of `GridCanvas._bbox_intersects_rects`: true when the query box
intersects some rectangle in the list. -/
def bboxIntersectsRects (rects : List Rect) (bbox : Rect) : Bool :=
  rects.any (fun r => qrectIntersects bbox r)

/-- Lower end of a rectangle's normalized coordinate range on one axis. -/
def normLo (x w : ℚ) : ℚ := min x (x + w)

/-- Upper end of a rectangle's normalized coordinate range on one axis. -/
def normHi (x w : ℚ) : ℚ := max x (x + w)

/-- Modelled from the spec: two coordinate ranges overlap strictly when
they share an interval of positive length. -/
def strictOverlap (lo1 hi1 lo2 hi2 : ℚ) : Prop :=
  max lo1 lo2 < min hi1 hi2

/-- Modelled from the spec: two rectangles intersect when their
coordinate ranges overlap strictly on both axes; touching edges
(zero-area overlap) do not count. -/
def specIntersects (a b : Rect) : Prop :=
  strictOverlap (normLo a.x a.w) (normHi a.x a.w) (normLo b.x b.w) (normHi b.x b.w) ∧
  strictOverlap (normLo a.y a.h) (normHi a.y a.h) (normLo b.y b.h) (normHi b.y b.h)

instance (a b : Rect) : Decidable (specIntersects a b) := by
  unfold specIntersects strictOverlap
  infer_instance

theorem normLo_eq (x w : ℚ) : x + (if w < 0 then w else 0) = normLo x w := by
  unfold normLo
  split_ifs with h
  · rw [min_eq_right (by linarith)]
  · rw [min_eq_left (by linarith), add_zero]

theorem normHi_eq (x w : ℚ) : x + (if w < 0 then 0 else w) = normHi x w := by
  unfold normHi
  split_ifs with h
  · rw [max_eq_left (by linarith), add_zero]
  · rw [max_eq_right (by linarith)]

/-- Pointwise agreement between Qt's `QRectF.intersects` and the spec's
strict-overlap criterion. -/
theorem qrectIntersects_iff (a b : Rect) :
    qrectIntersects a b = true ↔ specIntersects a b := by
  simp only [qrectIntersects, specIntersects, strictOverlap]
  rw [normLo_eq a.x a.w, normHi_eq a.x a.w, normLo_eq b.x b.w, normHi_eq b.x b.w,
      normLo_eq a.y a.h, normHi_eq a.y a.h, normLo_eq b.y b.h, normHi_eq b.y b.h]
  have m1 : normLo a.x a.w ≤ normHi a.x a.w := min_le_max
  have m2 : normLo b.x b.w ≤ normHi b.x b.w := min_le_max
  have m3 : normLo a.y a.h ≤ normHi a.y a.h := min_le_max
  have m4 : normLo b.y b.h ≤ normHi b.y b.h := min_le_max
  split_ifs with h1 h2 h3 h4
  · simp only [false_iff]
    rintro ⟨hx, -⟩
    rw [max_lt_iff, lt_min_iff, lt_min_iff] at hx
    rcases h1 with h | h <;> linarith [hx.1.1, hx.1.2, hx.2.1, hx.2.2]
  · simp only [false_iff]
    rintro ⟨hx, -⟩
    rw [max_lt_iff, lt_min_iff, lt_min_iff] at hx
    rcases h2 with h | h <;> linarith [hx.1.1, hx.1.2, hx.2.1, hx.2.2]
  · simp only [false_iff]
    rintro ⟨-, hy⟩
    rw [max_lt_iff, lt_min_iff, lt_min_iff] at hy
    rcases h3 with h | h <;> linarith [hy.1.1, hy.1.2, hy.2.1, hy.2.2]
  · simp only [false_iff]
    rintro ⟨-, hy⟩
    rw [max_lt_iff, lt_min_iff, lt_min_iff] at hy
    rcases h4 with h | h <;> linarith [hy.1.1, hy.1.2, hy.2.1, hy.2.2]
  · push_neg at h1 h2 h3 h4
    simp only [true_iff]
    constructor
    · rw [max_lt_iff, lt_min_iff, lt_min_iff]
      exact ⟨⟨lt_of_le_of_ne m1 h1.1, h2.1⟩, h2.2, lt_of_le_of_ne m2 h1.2⟩
    · rw [max_lt_iff, lt_min_iff, lt_min_iff]
      exact ⟨⟨lt_of_le_of_ne m3 h3.1, h4.1⟩, h4.2, lt_of_le_of_ne m4 h3.2⟩

/-- C8: `_bbox_intersects_rects` returns true for a query bounding
box iff some rectangle in the set overlaps it strictly on both axes;
rectangles that merely touch along an edge (zero-area overlap), and
degenerate zero-extent rectangles, count as non-intersecting. -/
theorem bboxIntersectsRects_iff (rects : List Rect) (bbox : Rect) :
    bboxIntersectsRects rects bbox = true ↔ ∃ r ∈ rects, specIntersects bbox r := by
  simp only [bboxIntersectsRects, List.any_eq_true, qrectIntersects_iff]

/-! ### Agent motion engine (`GridCanvas._tick`) -/

/-- One mobile agent: the dict `{'pos','vel','size','battery'}` used for
both ordinary quadcopters and the purple drone. -/
structure Agent where
  posX : ℚ
  posY : ℚ
  velX : ℚ
  velY : ℚ
  size : ℚ
  battery : ℚ
deriving DecidableEq

/-- The random draws one agent's tick may consume: the escape velocity
used when the nudge loop fails, and one jitter draw per boundary clamp
(each a fresh `random.uniform(-0.6, 0.6)` call in the source). -/
structure TickRand where
  escVX : ℚ
  escVY : ℚ
  jXLo : ℚ
  jXHi : ℚ
  jYLo : ℚ
  jYHi : ℚ
deriving DecidableEq

/-- Bounding box `QRectF(cx - size/2, cy - size/2, size, size)`. -/
def agentBBox (cx cy size : ℚ) : Rect :=
  ⟨cx - size / 2, cy - size / 2, size, size⟩

/-- X half-step of `_tick`: propose `pos.x + vel.x`; on zone intersection
reverse `vel.x` and stay, otherwise commit the move. -/
def moveX (rects : List Rect) (q : Agent) : Agent :=
  let nx := q.posX + q.velX
  if bboxIntersectsRects rects (agentBBox nx q.posY q.size) then
    { q with velX := -q.velX }
  else
    { q with posX := nx }

/-- Y half-step of `_tick`, using the already-updated X position. -/
def moveY (rects : List Rect) (q : Agent) : Agent :=
  let ny := q.posY + q.velY
  if bboxIntersectsRects rects (agentBBox q.posX ny q.size) then
    { q with velY := -q.velY }
  else
    { q with posY := ny }

/-- The bounded escape loop of `_tick`: up to `k` nudges along the
current velocity; returns the final agent and whether an overlap-free
position was found. -/
def nudgeLoop (rects : List Rect) : ℕ → Agent → Agent × Bool
  | 0, q => (q, false)
  | k + 1, q =>
    let q' := { q with posX := q.posX + q.velX, posY := q.posY + q.velY }
    if bboxIntersectsRects rects (agentBBox q'.posX q'.posY q'.size) then
      nudgeLoop rects k q'
    else
      (q', true)

/-- The zone-avoidance phase of `_tick` for an ordinary quadcopter:
per-axis moves, then — only if the resulting box still overlaps a zone —
up to 6 nudges, falling back to a fresh random velocity. -/
def tickMove (rects : List Rect) (rnd : TickRand) (q : Agent) : Agent :=
  let q1 := moveY rects (moveX rects q)
  if bboxIntersectsRects rects (agentBBox q1.posX q1.posY q1.size) then
    let n := nudgeLoop rects 6 q1
    if n.2 then n.1 else { n.1 with velX := rnd.escVX, velY := rnd.escVY }
  else q1

/-- The minimum-speed floor applied to a perturbed bounce velocity of an
ordinary quadcopter: `0.15` with the perturbed value's sign. -/
def clampVel (v : ℚ) : ℚ :=
  if |v| < 3 / 20 then 3 / 20 * (if 0 ≤ v then 1 else -1) else v

/-- Boundary-containment phase of `_tick` for an ordinary quadcopter:
clamp to each crossed playable-area edge in source order (x-low, x-high,
y-low, battery drain, y-high), reflecting the velocity plus jitter and
flooring its magnitude at 0.15. -/
def tickClampQuad (ax0 ay0 ax1 ay1 : ℚ) (rnd : TickRand) (q : Agent) : Agent :=
  let half := q.size / 2
  let q := if q.posX - half < ax0 then
      { q with posX := ax0 + half, velX := clampVel (-q.velX + rnd.jXLo) } else q
  let q := if q.posX + half > ax1 then
      { q with posX := ax1 - half, velX := clampVel (-q.velX + rnd.jXHi) } else q
  let q := if q.posY - half < ay0 then
      { q with posY := ay0 + half, velY := clampVel (-q.velY + rnd.jYLo) } else q
  let q := { q with battery := max 0 (q.battery - 1 / 50) }
  let q := if q.posY + half > ay1 then
      { q with posY := ay1 - half, velY := clampVel (-q.velY + rnd.jYHi) } else q
  q

/-- One full `_tick` step for an ordinary quadcopter. -/
def tickQuad (rects : List Rect) (ax0 ay0 ax1 ay1 : ℚ) (rnd : TickRand)
    (q : Agent) : Agent :=
  tickClampQuad ax0 ay0 ax1 ay1 rnd (tickMove rects rnd q)

/-- Boundary-containment phase of `_tick` for the purple drone: same
edge clamps (no minimum-speed floor), then battery drain of 0.03. -/
def tickClampPurple (ax0 ay0 ax1 ay1 : ℚ) (rnd : TickRand) (q : Agent) : Agent :=
  let half := q.size / 2
  let q := if q.posX - half < ax0 then
      { q with posX := ax0 + half, velX := -q.velX + rnd.jXLo } else q
  let q := if q.posX + half > ax1 then
      { q with posX := ax1 - half, velX := -q.velX + rnd.jXHi } else q
  let q := if q.posY - half < ay0 then
      { q with posY := ay0 + half, velY := -q.velY + rnd.jYLo } else q
  let q := if q.posY + half > ay1 then
      { q with posY := ay1 - half, velY := -q.velY + rnd.jYHi } else q
  { q with battery := max 0 (q.battery - 3 / 100) }

/-- One full `_tick` step for the purple drone: per-axis moves (the
purple branch has no nudge loop), then boundary clamps. -/
def tickPurple (rects : List Rect) (ax0 ay0 ax1 ay1 : ℚ) (rnd : TickRand)
    (q : Agent) : Agent :=
  tickClampPurple ax0 ay0 ax1 ay1 rnd (moveY rects (moveX rects q))

theorem moveX_size (rects : List Rect) (q : Agent) : (moveX rects q).size = q.size := by
  unfold moveX
  dsimp only
  split_ifs <;> rfl

theorem moveY_size (rects : List Rect) (q : Agent) : (moveY rects q).size = q.size := by
  unfold moveY
  dsimp only
  split_ifs <;> rfl

theorem nudgeLoop_size (rects : List Rect) :
    ∀ (k : ℕ) (q : Agent), (nudgeLoop rects k q).1.size = q.size := by
  intro k
  induction k with
  | zero => intro q; rfl
  | succ k ih =>
    intro q
    unfold nudgeLoop
    dsimp only
    split_ifs
    · rw [ih]
    · rfl

theorem tickMove_size (rects : List Rect) (rnd : TickRand) (q : Agent) :
    (tickMove rects rnd q).size = q.size := by
  unfold tickMove
  dsimp only
  split_ifs <;>
    simp only [nudgeLoop_size, moveY_size, moveX_size]

theorem tickClampQuad_size (ax0 ay0 ax1 ay1 : ℚ) (rnd : TickRand) (q : Agent) :
    (tickClampQuad ax0 ay0 ax1 ay1 rnd q).size = q.size := by
  simp only [tickClampQuad]
  split_ifs <;> rfl

theorem tickClampPurple_size (ax0 ay0 ax1 ay1 : ℚ) (rnd : TickRand) (q : Agent) :
    (tickClampPurple ax0 ay0 ax1 ay1 rnd q).size = q.size := by
  simp only [tickClampPurple]
  split_ifs <;> rfl

/-- The clamp phase of an ordinary quadcopter's tick leaves every corner
of the agent's box inside the playable area, whenever the box fits the
area at all. -/
theorem tickClampQuad_bounds (ax0 ay0 ax1 ay1 : ℚ) (rnd : TickRand) (q : Agent)
    (hx : q.size ≤ ax1 - ax0) (hy : q.size ≤ ay1 - ay0) :
    ax0 ≤ (tickClampQuad ax0 ay0 ax1 ay1 rnd q).posX - q.size / 2 ∧
    (tickClampQuad ax0 ay0 ax1 ay1 rnd q).posX + q.size / 2 ≤ ax1 ∧
    ay0 ≤ (tickClampQuad ax0 ay0 ax1 ay1 rnd q).posY - q.size / 2 ∧
    (tickClampQuad ax0 ay0 ax1 ay1 rnd q).posY + q.size / 2 ≤ ay1 := by
  simp only [tickClampQuad]
  split_ifs <;> (try dsimp only at *) <;>
    exact ⟨by linarith, by linarith, by linarith, by linarith⟩

/-- Same containment for the purple drone's clamp phase. -/
theorem tickClampPurple_bounds (ax0 ay0 ax1 ay1 : ℚ) (rnd : TickRand) (q : Agent)
    (hx : q.size ≤ ax1 - ax0) (hy : q.size ≤ ay1 - ay0) :
    ax0 ≤ (tickClampPurple ax0 ay0 ax1 ay1 rnd q).posX - q.size / 2 ∧
    (tickClampPurple ax0 ay0 ax1 ay1 rnd q).posX + q.size / 2 ≤ ax1 ∧
    ay0 ≤ (tickClampPurple ax0 ay0 ax1 ay1 rnd q).posY - q.size / 2 ∧
    (tickClampPurple ax0 ay0 ax1 ay1 rnd q).posY + q.size / 2 ≤ ay1 := by
  simp only [tickClampPurple]
  split_ifs <;> (try dsimp only at *) <;>
    exact ⟨by linarith, by linarith, by linarith, by linarith⟩

/-- C4: After a tick's boundary clamping, no corner of any agent's
bounding box (a `size`-sided square centered at its position) lies
outside the playable area `[ax0, ax1] × [ay0, ay1]` — for ordinary
quadcopters and for the purple drone alike, whenever the box fits inside
the area (always true for the source's parameters: box side
`0.9 × 70 = 63` against a playable area at least `260 × 160` under the
widget's 400×300 minimum size). -/
theorem tick_bounds (rects : List Rect) (ax0 ay0 ax1 ay1 : ℚ) (rnd : TickRand)
    (q p : Agent)
    (hqx : q.size ≤ ax1 - ax0) (hqy : q.size ≤ ay1 - ay0)
    (hpx : p.size ≤ ax1 - ax0) (hpy : p.size ≤ ay1 - ay0) :
    (ax0 ≤ (tickQuad rects ax0 ay0 ax1 ay1 rnd q).posX
        - (tickQuad rects ax0 ay0 ax1 ay1 rnd q).size / 2 ∧
     (tickQuad rects ax0 ay0 ax1 ay1 rnd q).posX
        + (tickQuad rects ax0 ay0 ax1 ay1 rnd q).size / 2 ≤ ax1 ∧
     ay0 ≤ (tickQuad rects ax0 ay0 ax1 ay1 rnd q).posY
        - (tickQuad rects ax0 ay0 ax1 ay1 rnd q).size / 2 ∧
     (tickQuad rects ax0 ay0 ax1 ay1 rnd q).posY
        + (tickQuad rects ax0 ay0 ax1 ay1 rnd q).size / 2 ≤ ay1) ∧
    (ax0 ≤ (tickPurple rects ax0 ay0 ax1 ay1 rnd p).posX
        - (tickPurple rects ax0 ay0 ax1 ay1 rnd p).size / 2 ∧
     (tickPurple rects ax0 ay0 ax1 ay1 rnd p).posX
        + (tickPurple rects ax0 ay0 ax1 ay1 rnd p).size / 2 ≤ ax1 ∧
     ay0 ≤ (tickPurple rects ax0 ay0 ax1 ay1 rnd p).posY
        - (tickPurple rects ax0 ay0 ax1 ay1 rnd p).size / 2 ∧
     (tickPurple rects ax0 ay0 ax1 ay1 rnd p).posY
        + (tickPurple rects ax0 ay0 ax1 ay1 rnd p).size / 2 ≤ ay1) := by
  constructor
  · have hs : (tickMove rects rnd q).size = q.size := tickMove_size rects rnd q
    have := tickClampQuad_bounds ax0 ay0 ax1 ay1 rnd (tickMove rects rnd q)
      (by rw [hs]; exact hqx) (by rw [hs]; exact hqy)
    unfold tickQuad
    rw [tickClampQuad_size, hs]
    rw [hs] at this
    exact this
  · have hs : (moveY rects (moveX rects p)).size = p.size := by
      rw [moveY_size, moveX_size]
    have := tickClampPurple_bounds ax0 ay0 ax1 ay1 rnd (moveY rects (moveX rects p))
      (by rw [hs]; exact hpx) (by rw [hs]; exact hpy)
    unfold tickPurple
    rw [tickClampPurple_size, hs]
    rw [hs] at this
    exact this

/-- Closed witness for C4 at the source's geometry: 70-pixel cells on a
400×300 canvas, agents of size 63, no exclusion zones. -/
theorem tick_bounds_witness :
    ((63 : ℚ) ≤ 330 - 70) ∧ ((63 : ℚ) ≤ 230 - 70) ∧
    (((70 : ℚ) ≤ (tickQuad [] 70 70 330 230 ⟨0, 0, 0, 0, 0, 0⟩
        ⟨200, 150, 1, 1, 63, 90⟩).posX
        - (tickQuad [] 70 70 330 230 ⟨0, 0, 0, 0, 0, 0⟩
        ⟨200, 150, 1, 1, 63, 90⟩).size / 2 ∧
      (tickQuad [] 70 70 330 230 ⟨0, 0, 0, 0, 0, 0⟩
        ⟨200, 150, 1, 1, 63, 90⟩).posX
        + (tickQuad [] 70 70 330 230 ⟨0, 0, 0, 0, 0, 0⟩
        ⟨200, 150, 1, 1, 63, 90⟩).size / 2 ≤ 330 ∧
      (70 : ℚ) ≤ (tickQuad [] 70 70 330 230 ⟨0, 0, 0, 0, 0, 0⟩
        ⟨200, 150, 1, 1, 63, 90⟩).posY
        - (tickQuad [] 70 70 330 230 ⟨0, 0, 0, 0, 0, 0⟩
        ⟨200, 150, 1, 1, 63, 90⟩).size / 2 ∧
      (tickQuad [] 70 70 330 230 ⟨0, 0, 0, 0, 0, 0⟩
        ⟨200, 150, 1, 1, 63, 90⟩).posY
        + (tickQuad [] 70 70 330 230 ⟨0, 0, 0, 0, 0, 0⟩
        ⟨200, 150, 1, 1, 63, 90⟩).size / 2 ≤ 230) ∧
     ((70 : ℚ) ≤ (tickPurple [] 70 70 330 230 ⟨0, 0, 0, 0, 0, 0⟩
        ⟨100, 100, -2, 3, 63, 95⟩).posX
        - (tickPurple [] 70 70 330 230 ⟨0, 0, 0, 0, 0, 0⟩
        ⟨100, 100, -2, 3, 63, 95⟩).size / 2 ∧
      (tickPurple [] 70 70 330 230 ⟨0, 0, 0, 0, 0, 0⟩
        ⟨100, 100, -2, 3, 63, 95⟩).posX
        + (tickPurple [] 70 70 330 230 ⟨0, 0, 0, 0, 0, 0⟩
        ⟨100, 100, -2, 3, 63, 95⟩).size / 2 ≤ 330 ∧
      (70 : ℚ) ≤ (tickPurple [] 70 70 330 230 ⟨0, 0, 0, 0, 0, 0⟩
        ⟨100, 100, -2, 3, 63, 95⟩).posY
        - (tickPurple [] 70 70 330 230 ⟨0, 0, 0, 0, 0, 0⟩
        ⟨100, 100, -2, 3, 63, 95⟩).size / 2 ∧
      (tickPurple [] 70 70 330 230 ⟨0, 0, 0, 0, 0, 0⟩
        ⟨100, 100, -2, 3, 63, 95⟩).posY
        + (tickPurple [] 70 70 330 230 ⟨0, 0, 0, 0, 0, 0⟩
        ⟨100, 100, -2, 3, 63, 95⟩).size / 2 ≤ 230)) :=
  ⟨by norm_num, by norm_num,
   tick_bounds [] 70 70 330 230 ⟨0, 0, 0, 0, 0, 0⟩
     ⟨200, 150, 1, 1, 63, 90⟩ ⟨100, 100, -2, 3, 63, 95⟩
     (by norm_num) (by norm_num) (by norm_num) (by norm_num)⟩

theorem moveX_posY (rects : List Rect) (q : Agent) : (moveX rects q).posY = q.posY := by
  unfold moveX; dsimp only; split_ifs <;> rfl

theorem moveX_velY (rects : List Rect) (q : Agent) : (moveX rects q).velY = q.velY := by
  unfold moveX; dsimp only; split_ifs <;> rfl

theorem moveY_posX (rects : List Rect) (q : Agent) : (moveY rects q).posX = q.posX := by
  unfold moveY; dsimp only; split_ifs <;> rfl

theorem moveY_velX (rects : List Rect) (q : Agent) : (moveY rects q).velX = q.velX := by
  unfold moveY; dsimp only; split_ifs <;> rfl

/-- The agent after the two per-axis half-steps of `_tick`. -/
def postMove (rects : List Rect) (q : Agent) : Agent :=
  moveY rects (moveX rects q)

/-- The X-collision test of `_tick`: would the box at the proposed X
position overlap an exclusion zone? -/
def hitX (rects : List Rect) (q : Agent) : Bool :=
  bboxIntersectsRects rects (agentBBox (q.posX + q.velX) q.posY q.size)

/-- The Y-collision test of `_tick`, evaluated (as in the source) at the
already-updated X position. -/
def hitY (rects : List Rect) (q : Agent) : Bool :=
  bboxIntersectsRects rects (agentBBox (moveX rects q).posX (q.posY + q.velY) q.size)

/-- Behaviour of the per-axis move phase: each axis either commits its
proposed move or reverses that axis's velocity and stays. -/
theorem postMove_spec (rects : List Rect) (q : Agent) :
    (hitX rects q = true →
      (postMove rects q).posX = q.posX ∧ (postMove rects q).velX = -q.velX) ∧
    (hitX rects q = false →
      (postMove rects q).posX = q.posX + q.velX ∧ (postMove rects q).velX = q.velX) ∧
    (hitY rects q = true →
      (postMove rects q).posY = q.posY ∧ (postMove rects q).velY = -q.velY) ∧
    (hitY rects q = false →
      (postMove rects q).posY = q.posY + q.velY ∧ (postMove rects q).velY = q.velY) := by
  unfold postMove hitX hitY moveX moveY
  dsimp only
  split_ifs with h1 h2 h2 <;>
    simp_all

/-- When no playable-area edge is crossed, the ordinary clamp phase only
drains battery. -/
theorem tickClampQuad_noclamp (ax0 ay0 ax1 ay1 : ℚ) (rnd : TickRand) (q : Agent)
    (hx0 : ax0 ≤ q.posX - q.size / 2) (hx1 : q.posX + q.size / 2 ≤ ax1)
    (hy0 : ay0 ≤ q.posY - q.size / 2) (hy1 : q.posY + q.size / 2 ≤ ay1) :
    tickClampQuad ax0 ay0 ax1 ay1 rnd q
      = { q with battery := max 0 (q.battery - 1 / 50) } := by
  simp only [tickClampQuad]
  split_ifs <;>
    first
      | rfl
      | (exfalso; (try dsimp only at *); linarith)

/-- When no playable-area edge is crossed, the purple clamp phase only
drains battery. -/
theorem tickClampPurple_noclamp (ax0 ay0 ax1 ay1 : ℚ) (rnd : TickRand) (q : Agent)
    (hx0 : ax0 ≤ q.posX - q.size / 2) (hx1 : q.posX + q.size / 2 ≤ ax1)
    (hy0 : ay0 ≤ q.posY - q.size / 2) (hy1 : q.posY + q.size / 2 ≤ ay1) :
    tickClampPurple ax0 ay0 ax1 ay1 rnd q
      = { q with battery := max 0 (q.battery - 3 / 100) } := by
  simp only [tickClampPurple]
  split_ifs <;>
    first
      | rfl
      | (exfalso; (try dsimp only at *); linarith)

/-- With no residual overlap after the two half-steps, the nudge branch
of the ordinary tick is skipped. -/
theorem tickMove_of_clear (rects : List Rect) (rnd : TickRand) (q : Agent)
    (h0 : bboxIntersectsRects rects
      (agentBBox (postMove rects q).posX (postMove rects q).posY
        (postMove rects q).size) = false) :
    tickMove rects rnd q = postMove rects q := by
  unfold tickMove
  dsimp only
  rw [show moveY rects (moveX rects q) = postMove rects q from rfl, h0]
  rfl

theorem postMove_size (rects : List Rect) (q : Agent) :
    (postMove rects q).size = q.size := by
  unfold postMove
  rw [moveY_size, moveX_size]

/-- C5: Per-axis collision avoidance in `_tick`, for ordinary
quadcopters and the purple drone: if the proposed X move's bounding box
intersects an exclusion zone the agent keeps its X position and flips
the sign of its X velocity, otherwise the X move is committed; the same
rule is applied to the Y axis (whose proposal uses the already-updated X
position) — assuming the post-move box overlaps no zone (no nudge fires)
and no boundary clamp fires that tick. -/
theorem tick_axis_rule (rects : List Rect) (ax0 ay0 ax1 ay1 : ℚ) (rnd : TickRand)
    (q p : Agent)
    (hq0 : bboxIntersectsRects rects
      (agentBBox (postMove rects q).posX (postMove rects q).posY
        (postMove rects q).size) = false)
    (hqx0 : ax0 ≤ (postMove rects q).posX - q.size / 2)
    (hqx1 : (postMove rects q).posX + q.size / 2 ≤ ax1)
    (hqy0 : ay0 ≤ (postMove rects q).posY - q.size / 2)
    (hqy1 : (postMove rects q).posY + q.size / 2 ≤ ay1)
    (hpx0 : ax0 ≤ (postMove rects p).posX - p.size / 2)
    (hpx1 : (postMove rects p).posX + p.size / 2 ≤ ax1)
    (hpy0 : ay0 ≤ (postMove rects p).posY - p.size / 2)
    (hpy1 : (postMove rects p).posY + p.size / 2 ≤ ay1) :
    ((hitX rects q = true →
        (tickQuad rects ax0 ay0 ax1 ay1 rnd q).posX = q.posX ∧
        (tickQuad rects ax0 ay0 ax1 ay1 rnd q).velX = -q.velX) ∧
     (hitX rects q = false →
        (tickQuad rects ax0 ay0 ax1 ay1 rnd q).posX = q.posX + q.velX ∧
        (tickQuad rects ax0 ay0 ax1 ay1 rnd q).velX = q.velX) ∧
     (hitY rects q = true →
        (tickQuad rects ax0 ay0 ax1 ay1 rnd q).posY = q.posY ∧
        (tickQuad rects ax0 ay0 ax1 ay1 rnd q).velY = -q.velY) ∧
     (hitY rects q = false →
        (tickQuad rects ax0 ay0 ax1 ay1 rnd q).posY = q.posY + q.velY ∧
        (tickQuad rects ax0 ay0 ax1 ay1 rnd q).velY = q.velY)) ∧
    ((hitX rects p = true →
        (tickPurple rects ax0 ay0 ax1 ay1 rnd p).posX = p.posX ∧
        (tickPurple rects ax0 ay0 ax1 ay1 rnd p).velX = -p.velX) ∧
     (hitX rects p = false →
        (tickPurple rects ax0 ay0 ax1 ay1 rnd p).posX = p.posX + p.velX ∧
        (tickPurple rects ax0 ay0 ax1 ay1 rnd p).velX = p.velX) ∧
     (hitY rects p = true →
        (tickPurple rects ax0 ay0 ax1 ay1 rnd p).posY = p.posY ∧
        (tickPurple rects ax0 ay0 ax1 ay1 rnd p).velY = -p.velY) ∧
     (hitY rects p = false →
        (tickPurple rects ax0 ay0 ax1 ay1 rnd p).posY = p.posY + p.velY ∧
        (tickPurple rects ax0 ay0 ax1 ay1 rnd p).velY = p.velY)) := by
  have hsq := postMove_size rects q
  have hsp := postMove_size rects p
  have eq1 : tickQuad rects ax0 ay0 ax1 ay1 rnd q
      = { postMove rects q with
            battery := max 0 ((postMove rects q).battery - 1 / 50) } := by
    unfold tickQuad
    rw [tickMove_of_clear rects rnd q hq0]
    exact tickClampQuad_noclamp ax0 ay0 ax1 ay1 rnd (postMove rects q)
      (by rw [hsq]; exact hqx0) (by rw [hsq]; exact hqx1)
      (by rw [hsq]; exact hqy0) (by rw [hsq]; exact hqy1)
  have eq2 : tickPurple rects ax0 ay0 ax1 ay1 rnd p
      = { postMove rects p with
            battery := max 0 ((postMove rects p).battery - 3 / 100) } := by
    unfold tickPurple
    rw [show moveY rects (moveX rects p) = postMove rects p from rfl]
    exact tickClampPurple_noclamp ax0 ay0 ax1 ay1 rnd (postMove rects p)
      (by rw [hsp]; exact hpx0) (by rw [hsp]; exact hpx1)
      (by rw [hsp]; exact hpy0) (by rw [hsp]; exact hpy1)
  have hq := postMove_spec rects q
  have hp := postMove_spec rects p
  rw [eq1, eq2]
  exact ⟨⟨hq.1, hq.2.1, hq.2.2.1, hq.2.2.2⟩, ⟨hp.1, hp.2.1, hp.2.2.1, hp.2.2.2⟩⟩

/-- Concrete scenario for the C5 witness: one exclusion zone spanning
the agent's entire X path. -/
def cRects : List Rect := [⟨40, -100, 20, 200⟩]

/-- Concrete agent for the C5 witness. -/
def cAgent : Agent := ⟨30, 0, 6, 1, 10, 50⟩

/-- Unused random draws for the C5 witness. -/
def cRnd : TickRand := ⟨0, 0, 0, 0, 0, 0⟩

/-- Closed witness for C5: against a wall of rectangle `[40,60]×[-100,100]`
the agent at `(30,0)` with velocity `(6,1)` flips its X velocity and
stays on X, while the Y move commits — for the ordinary tick and the
purple tick alike. -/
theorem tick_axis_rule_witness :
    hitX cRects cAgent = true ∧ hitY cRects cAgent = false ∧
    bboxIntersectsRects cRects
      (agentBBox (postMove cRects cAgent).posX (postMove cRects cAgent).posY
        (postMove cRects cAgent).size) = false ∧
    (-1000 : ℚ) ≤ (postMove cRects cAgent).posX - cAgent.size / 2 ∧
    (postMove cRects cAgent).posX + cAgent.size / 2 ≤ 1000 ∧
    (-1000 : ℚ) ≤ (postMove cRects cAgent).posY - cAgent.size / 2 ∧
    (postMove cRects cAgent).posY + cAgent.size / 2 ≤ 1000 ∧
    (tickQuad cRects (-1000) (-1000) 1000 1000 cRnd cAgent).posX = cAgent.posX ∧
    (tickQuad cRects (-1000) (-1000) 1000 1000 cRnd cAgent).velX = -cAgent.velX ∧
    (tickPurple cRects (-1000) (-1000) 1000 1000 cRnd cAgent).posY
      = cAgent.posY + cAgent.velY ∧
    (tickPurple cRects (-1000) (-1000) 1000 1000 cRnd cAgent).velY = cAgent.velY := by
  have hpm : postMove cRects cAgent = ⟨30, 1, -6, 1, 10, 50⟩ := by
    norm_num [postMove, moveX, moveY, bboxIntersectsRects, qrectIntersects,
      agentBBox, cRects, cAgent]
  have hx : hitX cRects cAgent = true := by
    norm_num [hitX, bboxIntersectsRects, qrectIntersects, agentBBox, cRects, cAgent]
  have hy : hitY cRects cAgent = false := by
    norm_num [hitY, moveX, bboxIntersectsRects, qrectIntersects, agentBBox,
      cRects, cAgent]
  have h0 : bboxIntersectsRects cRects
      (agentBBox (postMove cRects cAgent).posX (postMove cRects cAgent).posY
        (postMove cRects cAgent).size) = false := by
    rw [hpm]
    norm_num [bboxIntersectsRects, qrectIntersects, agentBBox, cRects]
  have h1 : (-1000 : ℚ) ≤ (postMove cRects cAgent).posX - cAgent.size / 2 := by
    rw [hpm]; norm_num [cAgent]
  have h2 : (postMove cRects cAgent).posX + cAgent.size / 2 ≤ 1000 := by
    rw [hpm]; norm_num [cAgent]
  have h3 : (-1000 : ℚ) ≤ (postMove cRects cAgent).posY - cAgent.size / 2 := by
    rw [hpm]; norm_num [cAgent]
  have h4 : (postMove cRects cAgent).posY + cAgent.size / 2 ≤ 1000 := by
    rw [hpm]; norm_num [cAgent]
  have happ := tick_axis_rule cRects (-1000) (-1000) 1000 1000 cRnd cAgent cAgent
    h0 h1 h2 h3 h4 h1 h2 h3 h4
  exact ⟨hx, hy, h0, h1, h2, h3, h4,
    (happ.1.1 hx).1, (happ.1.1 hx).2,
    (happ.2.2.2.2 hy).1, (happ.2.2.2.2 hy).2⟩

/-! ### Canvas state: pins, zones, agents, visited cells -/

/-- The mutable state of `GridCanvas` relevant to the simulation core:
cell size, the two pin collections, user rectangles, agents, visited
cells, and whether the animation timer is running. -/
structure CanvasState where
  cellSize : ℚ
  pins : List (String × ℤ)
  purplePins : List (String × ℤ)
  rectangles : List Rect
  quadcopters : List Agent
  purpleDrone : Option Agent
  visited : Finset (ℤ × ℤ)
  animActive : Bool

/-- Embedding of `GridCanvas.add_pin`: normalize the key to upper case and insert it
into `pins` unless already present. -/
def addPin (s : CanvasState) (rowLetter : String) (colNum : ℤ) : CanvasState :=
  let key := (pyUpper rowLetter, colNum)
  if key ∈ s.pins then s else { s with pins := s.pins ++ [key] }

/-- The purple-pin key computed by `place_purple_pindrop` from the
purple drone's position: `(row letters).upper()` and the floor-divided
column index. -/
def droneKey (s : CanvasState) (pd : Agent) : String × ℤ :=
  (pyUpper (indexToLetters ⌊pd.posY / s.cellSize⌋), ⌊pd.posX / s.cellSize⌋)

/-- Embedding of `GridCanvas.place_purple_pindrop`: read the purple drone's cell; a
no-op when there is no drone or the cell touches the header border;
otherwise insert the key into `purple_pins` unless already present. -/
def placePurplePindrop (s : CanvasState) : CanvasState :=
  match s.purpleDrone with
  | none => s
  | some pd =>
    if ⌊pd.posY / s.cellSize⌋ < 1 ∨ ⌊pd.posX / s.cellSize⌋ < 1 then s
    else if droneKey s pd ∈ s.purplePins then s
    else { s with purplePins := s.purplePins ++ [droneKey s pd] }

/-- Embedding of `MainWindow._on_serial_pin`: every delivered serial event triggers
exactly one `place_purple_pindrop()` call; the payload is unused. -/
def onSerialPin (row : String) (col : ℤ) (s : CanvasState) : CanvasState :=
  placePurplePindrop s

/-- Embedding of `GridCanvas.stop_quads`: stop the timer, discard all quadcopters,
drop the purple drone and clear the purple pins. -/
def stopQuads (s : CanvasState) : CanvasState :=
  { s with
      animActive := false
      quadcopters := []
      purpleDrone := none
      purplePins := [] }

theorem placePurplePindrop_pins (s : CanvasState) :
    (placePurplePindrop s).pins = s.pins := by
  rcases h : s.purpleDrone with _ | pd <;>
    simp only [placePurplePindrop, h] <;>
    split_ifs <;> rfl

/-- C6: `place_purple_pindrop` is a no-op — state unchanged, no
failure — when no purple drone exists, or when the drone's computed grid
cell lies in the header border (row or column index below 1). -/
theorem placePurplePindrop_noop :
    (∀ s : CanvasState, s.purpleDrone = none → placePurplePindrop s = s) ∧
    (∀ (s : CanvasState) (pd : Agent), s.purpleDrone = some pd →
      (⌊pd.posY / s.cellSize⌋ < 1 ∨ ⌊pd.posX / s.cellSize⌋ < 1) →
      placePurplePindrop s = s) := by
  constructor
  · intro s h
    simp only [placePurplePindrop, h]
  · intro s pd h hb
    simp only [placePurplePindrop, h, if_pos hb]

/-- Closed witness for C6: a stopped state (no drone), and a state whose
drone sits at `(30, 30)` — grid cell `(0, 0)`, i.e. the header border. -/
theorem placePurplePindrop_noop_witness :
    placePurplePindrop ⟨70, [], [], [], [], none, ∅, false⟩
      = ⟨70, [], [], [], [], none, ∅, false⟩ ∧
    placePurplePindrop ⟨70, [], [], [], [], some ⟨30, 30, 0, 0, 63, 90⟩, ∅, true⟩
      = ⟨70, [], [], [], [], some ⟨30, 30, 0, 0, 63, 90⟩, ∅, true⟩ := by
  have hfl : ⌊(30 : ℚ) / 70⌋ = 0 := by norm_num [Int.floor_eq_iff]
  exact ⟨placePurplePindrop_noop.1 _ rfl,
    placePurplePindrop_noop.2 _ ⟨30, 30, 0, 0, 63, 90⟩ rfl (Or.inl (by rw [hfl]; omega))⟩

/-- C1: Every well-formed serial event triggers exactly one
`place_purple_pindrop()` call: the standard pin list is untouched, the
outcome is independent of the event's `(row, col)` payload, and the
marker (when one is added) lands at the purple drone's current grid
cell, not at the payload's cell. -/
theorem onSerialPin_spec (row : String) (col : ℤ) (s : CanvasState) :
    onSerialPin row col s = placePurplePindrop s ∧
    (onSerialPin row col s).pins = s.pins ∧
    (∀ (row2 : String) (col2 : ℤ), onSerialPin row col s = onSerialPin row2 col2 s) ∧
    (∀ pd : Agent, s.purpleDrone = some pd →
      ¬(⌊pd.posY / s.cellSize⌋ < 1 ∨ ⌊pd.posX / s.cellSize⌋ < 1) →
      droneKey s pd ∉ s.purplePins →
      (onSerialPin row col s).purplePins = s.purplePins ++ [droneKey s pd]) := by
  refine ⟨rfl, placePurplePindrop_pins s, fun _ _ => rfl, fun pd h hb hm => ?_⟩
  show (placePurplePindrop s).purplePins = _
  simp only [placePurplePindrop, h, if_neg hb, if_neg hm]

/-- Drone used by the C1 witness, sitting at plane point `(100, 150)`,
i.e. grid cell row 2 ("B"), column 1. -/
def wDrone : Agent := ⟨100, 150, 0, 0, 63, 90⟩

/-- Canvas state used by the C1 witness. -/
def wState : CanvasState := ⟨70, [], [], [], [], some wDrone, ∅, true⟩

/-- Closed witness for C1: the event `"B",9` adds no standard pin and
places the purple marker at the drone's own cell `("B", 1)` — not at the
payload cell `("B", 9)`. -/
theorem onSerialPin_witness :
    (onSerialPin "B" 9 wState).pins = wState.pins ∧
    (onSerialPin "B" 9 wState).purplePins = [("B", 1)] := by
  have hy : ⌊wDrone.posY / wState.cellSize⌋ = 2 := by
    norm_num [wDrone, wState, Int.floor_eq_iff]
  have hx : ⌊wDrone.posX / wState.cellSize⌋ = 1 := by
    norm_num [wDrone, wState, Int.floor_eq_iff]
  have hb : ¬(⌊wDrone.posY / wState.cellSize⌋ < 1 ∨
      ⌊wDrone.posX / wState.cellSize⌋ < 1) := by
    rw [hy, hx]
    omega
  have hm : droneKey wState wDrone ∉ wState.purplePins := by
    simp [wState]
  have hkey : droneKey wState wDrone = ("B", 1) := by
    unfold droneKey
    rw [hy, hx]
    decide
  have happ := onSerialPin_spec "B" 9 wState
  refine ⟨happ.2.1, ?_⟩
  have h4 := happ.2.2.2 wDrone rfl hb hm
  rw [h4, hkey]
  simp [wState]

theorem placePurplePindrop_idem_aux (s : CanvasState) :
    placePurplePindrop (placePurplePindrop s) = placePurplePindrop s := by
  rcases h : s.purpleDrone with _ | pd
  · simp [placePurplePindrop, h]
  · by_cases hb : ⌊pd.posY / s.cellSize⌋ < 1 ∨ ⌊pd.posX / s.cellSize⌋ < 1
    · simp [placePurplePindrop, h, hb]
    · by_cases hm : droneKey s pd ∈ s.purplePins
      · simp [placePurplePindrop, h, hb, hm]
      · have e : placePurplePindrop s
            = { s with purplePins := s.purplePins ++ [droneKey s pd] } := by
          simp [placePurplePindrop, h, hb, hm]
        rw [e]
        simp [placePurplePindrop, droneKey, h, hb]

theorem addPin_idem_aux (s : CanvasState) (r1 r2 : String) (c : ℤ)
    (h : pyUpper r1 = pyUpper r2) :
    addPin (addPin s r1 c) r2 c = addPin s r1 c := by
  by_cases hm : (pyUpper r1, c) ∈ s.pins
  · simp [addPin, hm, ← h]
  · have e : addPin s r1 c = { s with pins := s.pins ++ [(pyUpper r1, c)] } := by
      simp [addPin, hm]
    rw [e]
    simp [addPin, ← h]

/-- C7: Per-category idempotent insert: `place_purple_pindrop` run
twice changes nothing over running it once, and starting from a cell
with no marker it leaves exactly one distinguished marker; `add_pin`
treats row letters case-insensitively, so re-adding the same cell under
a different letter case is a no-op. -/
theorem marker_unique :
    (∀ s : CanvasState,
      placePurplePindrop (placePurplePindrop s) = placePurplePindrop s) ∧
    (∀ (s : CanvasState) (pd : Agent), s.purpleDrone = some pd →
      ¬(⌊pd.posY / s.cellSize⌋ < 1 ∨ ⌊pd.posX / s.cellSize⌋ < 1) →
      droneKey s pd ∉ s.purplePins →
      (placePurplePindrop (placePurplePindrop s)).purplePins.count (droneKey s pd)
        = 1) ∧
    (∀ (s : CanvasState) (r1 r2 : String) (c : ℤ), pyUpper r1 = pyUpper r2 →
      addPin (addPin s r1 c) r2 c = addPin s r1 c) := by
  refine ⟨placePurplePindrop_idem_aux, fun s pd h hb hm => ?_, addPin_idem_aux⟩
  rw [placePurplePindrop_idem_aux]
  have e : placePurplePindrop s
      = { s with purplePins := s.purplePins ++ [droneKey s pd] } := by
    simp [placePurplePindrop, h, hb, hm]
  rw [e]
  have h0 : s.purplePins.count (droneKey s pd) = 0 := List.count_eq_zero.mpr hm
  simp [List.count_append, h0]

/-- Closed witness for C7: the C1 drone scenario yields exactly one
purple marker after two placements, and `add_pin` with `"aa"` then
`"AA"` keeps a single pin entry. -/
theorem marker_unique_witness :
    (placePurplePindrop (placePurplePindrop wState)).purplePins.count
        (droneKey wState wDrone) = 1 ∧
    addPin (addPin ⟨70, [], [], [], [], none, ∅, false⟩ "aa" 3) "AA" 3
      = addPin ⟨70, [], [], [], [], none, ∅, false⟩ "aa" 3 := by
  have hy : ⌊wDrone.posY / wState.cellSize⌋ = 2 := by
    norm_num [wDrone, wState, Int.floor_eq_iff]
  have hx : ⌊wDrone.posX / wState.cellSize⌋ = 1 := by
    norm_num [wDrone, wState, Int.floor_eq_iff]
  refine ⟨marker_unique.2.1 wState wDrone rfl (by rw [hy, hx]; omega)
    (by simp [wState]), marker_unique.2.2 _ "aa" "AA" 3 (by decide)⟩

/-- C9: Frame effect of `stop_quads`: afterwards the quadcopter
list is empty, the purple drone is gone, the purple pins are cleared and
the timer is stopped, while standard pins, visited cells, rectangles and
the cell size are untouched; on an already-stopped state it changes
nothing. -/
theorem stopQuads_spec :
    (∀ s : CanvasState,
      (stopQuads s).quadcopters = [] ∧ (stopQuads s).purpleDrone = none ∧
      (stopQuads s).purplePins = [] ∧ (stopQuads s).animActive = false ∧
      (stopQuads s).pins = s.pins ∧ (stopQuads s).visited = s.visited ∧
      (stopQuads s).rectangles = s.rectangles ∧
      (stopQuads s).cellSize = s.cellSize) ∧
    (∀ s : CanvasState, s.quadcopters = [] → s.purpleDrone = none →
      s.purplePins = [] → s.animActive = false → stopQuads s = s) := by
  constructor
  · intro s
    exact ⟨rfl, rfl, rfl, rfl, rfl, rfl, rfl, rfl⟩
  · intro s h1 h2 h3 h4
    cases s
    simp_all [stopQuads]

/-- Closed witness for C9: stopping an already-stopped canvas is the
identity. -/
theorem stopQuads_witness :
    stopQuads ⟨70, [("B", 2)], [], [], [], none, ∅, false⟩
      = ⟨70, [("B", 2)], [], [], [], none, ∅, false⟩ :=
  stopQuads_spec.2 _ rfl rfl rfl rfl

end DetectorScout
